import Mathlib

/-!
Verification of the `popper run` command (`src/cli/popper/commands/cmd_run.py`)
against its natural-language specification.

The CLI body is embedded as a function from the parsed command-line arguments
to the ordered trace of observable effects it performs (logging-sink mutations,
parser/config-loader invocations, runner lifecycle events).  `log.fail` aborts
the command, so the trace simply ends at the corresponding `failMsg` event.
External collaborators that the repository only calls (WorkflowParser,
ConfigLoader, WorkflowRunner, the popper.log sink) are modelled from the spec
where their behaviour decides a claim; each such definition carries a doc
comment saying so.
-/

/-- Python truthiness of an optional string (`None` and `""` are falsy),
as used by `if step:`-style tests in `cmd_run.py`. -/
def truthy : Option String → Bool
  | none => false
  | some s => !(s == "")

/-- The parsed command-line arguments of `popper run` (the parameters of
`cli` in `cmd_run.py`).  `workspace = none` means the `-w` option was not
supplied, in which case click applies its declared default (`os.getcwd()`). -/
structure CliArgs where
  step : Option String
  wfile : String
  debug : Bool
  dry_run : Bool
  log_file : Option String
  quiet : Bool
  reuse : Bool
  engine : Option String
  resource_manager : Option String
  skip : List String
  skip_pull : Bool
  skip_clone : Bool
  substitution : List String
  allow_loose : Bool
  workspace : Option String
  conf : Option String
deriving Repr

/-- Logging level chosen by lines 141–147 of `cmd_run.py`:
start from `STEP_INFO`, move to `INFO` when `--quiet`, then to `DEBUG`
when `--debug` (so `--debug` overrides `--quiet`). -/
def levelOf (quiet debug : Bool) : String :=
  let level := "STEP_INFO"
  let level := if quiet then "INFO" else level
  let level := if debug then "DEBUG" else level
  level

/-- Modelled from the spec: the numeric values of the logging sink's levels
(`popper.log` is not part of the analysed sources).  `STEP_INFO` sits between
`DEBUG` and `INFO`, as the spec's "quiet still allows promotion of
warnings/errors" requires. -/
def levelValue : String → Nat
  | "DEBUG" => 10
  | "STEP_INFO" => 15
  | "INFO" => 20
  | "WARNING" => 30
  | "ERROR" => 40
  | _ => 0

/-- A message at level `msgLevel` is emitted when the sink's threshold is
`threshold` iff its value reaches the threshold's value. -/
def emitted (msgLevel threshold : String) : Bool :=
  levelValue threshold ≤ levelValue msgLevel

/-- A workflow step as far as this command's contracts are concerned:
its identifier and the substitution variables its definition references. -/
structure Step where
  id : String
  uses : List String
deriving DecidableEq, Repr

/-- A parsed workflow: the ordered list of its steps. -/
structure Workflow where
  steps : List Step
deriving DecidableEq, Repr

/-- The key of a `key=value` substitution pair as given on the command line:
the characters before the first `=`. -/
def subKey (s : String) : String := ⟨s.data.takeWhile (fun c => c ≠ '=')⟩

/-- First supplied substitution key that no step of the workflow references. -/
def unusedKey (wf : Workflow) (keys : List String) : Option String :=
  keys.find? (fun k => !(wf.steps.any (fun st => st.uses.contains k)))

/-- Modelled from the spec: the step filter applied by `WorkflowParser.parse`
(the parser is not part of the analysed sources).  A truthy `step` argument
keeps exactly the steps with that identifier; otherwise the steps named in the
skip list are removed, preserving declared order. -/
def filterSteps (steps : List Step) (step : Option String) (skipped : List String) :
    List Step :=
  if truthy step then
    steps.filter (fun st => st.id == step.getD "")
  else
    steps.filter (fun st => !(skipped.contains st.id))

inductive ParseError where
  | UnusedSubstitution (key : String)
deriving DecidableEq, Repr

/-- Modelled from the spec: `WorkflowParser.parse` (not part of the analysed
sources) builds the filtered workflow and, unless `allow_loose` is set, fails
with `UnusedSubstitution` at build time when a supplied substitution key is
referenced by no step. -/
def WorkflowParser.parse (wf : Workflow) (step : Option String)
    (skipped_steps : List String) (substitutions : List String)
    (allow_loose : Bool) : Except ParseError Workflow :=
  if !allow_loose then
    match unusedKey wf (substitutions.map subKey) with
    | some k => .error (.UnusedSubstitution k)
    | none => .ok ⟨filterSteps wf.steps step skipped_steps⟩
  else
    .ok ⟨filterSteps wf.steps step skipped_steps⟩

/-- Engine and resource-manager entries of a configuration file
(`--conf`), as far as `ConfigLoader.load` consults them. -/
structure ConfigFileOpts where
  engine_name : Option String
  resman_name : Option String
deriving Repr

/-- The resolved run configuration handed to the runner. -/
structure PopperConfig where
  engine_name : String
  resman_name : String
  workspace_dir : String
  reuse : Bool
  dry_run : Bool
  skip_pull : Bool
  skip_clone : Bool
deriving Repr

/-- Modelled from the spec: `ConfigLoader.load` (not part of the analysed
sources) resolves the run configuration, with any value supplied via an
explicit flag taking precedence over the same value found in the
configuration file, and built-in defaults last. -/
def ConfigLoader.load (engine_name resman_name : Option String)
    (config_file : Option ConfigFileOpts) (reuse dry_run skip_pull skip_clone : Bool)
    (workspace_dir : String) : PopperConfig :=
  { engine_name := engine_name.getD ((config_file.bind (·.engine_name)).getD "docker")
    resman_name := resman_name.getD ((config_file.bind (·.resman_name)).getD "host")
    workspace_dir := workspace_dir
    reuse := reuse
    dry_run := dry_run
    skip_pull := skip_pull
    skip_clone := skip_clone }

/-- The workspace value `cli` passes to `ConfigLoader.load`: the `-w` option
if supplied, else click's declared default `os.getcwd()`. -/
def workspaceArg (a : CliArgs) (cwd : String) : String :=
  a.workspace.getD cwd

/-- The resolved configuration built by the `ConfigLoader.load` call at
lines 169–178 of `cmd_run.py`. -/
def cliConfig (a : CliArgs) (cwd : String) (cf : Option ConfigFileOpts) : PopperConfig :=
  ConfigLoader.load a.engine a.resource_manager cf
    a.reuse a.dry_run a.skip_pull a.skip_clone (workspaceArg a cwd)

/-- Observable effects of one `popper run` invocation, in order. -/
inductive LogEvent where
  | setLevel (l : String)
  | setMarker (p : String)
  | addLogFile (f : String)
  | logDebug (m : String)
  | failMsg (m : String)
  | parseCall
  | loadConfigCall
  | runnerEnter
  | runnerRun
  | runnerExit
deriving DecidableEq, Repr

/-- Events of the setup phase (lines 141–154): logging-sink configuration. -/
def isSetup : LogEvent → Bool
  | .setLevel _ => true
  | .setMarker _ => true
  | .addLogFile _ => true
  | _ => false

def isRunnerEnter : LogEvent → Bool
  | .runnerEnter => true
  | _ => false

def isRunnerExit : LogEvent → Bool
  | .runnerExit => true
  | _ => false

/-- The message of `log.fail` at line 158 of `cmd_run.py`. -/
def skipConflictMsg : String := "`--skip` can not be used when STEP argument is passed."

/-- Message with which an aborting parse failure is reported. -/
def parseErrMsg : ParseError → String
  | .UnusedSubstitution k => "unused substitution " ++ k

/-- The full traceback text of an internal fault whose summary is `m`,
as produced by `traceback.format_exc()`. -/
def tracebackOf (m : String) : String :=
  "Traceback (most recent call last): " ++ m

/-- How the `runner.run(wf)` call at line 182 terminates: normally, with a
step failure reported by the run, or by raising an unexpected exception. -/
inductive RunOutcome where
  | ok
  | stepFailure (m : String)
  | internalFault (m : String)
deriving DecidableEq, Repr

/-- The Python truthiness test `if skip and step:` at line 157. -/
def conflictCond (a : CliArgs) : Bool :=
  !a.skip.isEmpty && truthy a.step

/-- Lines 141–154 of `cmd_run.py`: set the logging level, install the
`DRYRUN: ` marker when `--dry-run`, attach a file sink when `--log-file`. -/
def setupPhase (a : CliArgs) : List LogEvent :=
  [.setLevel (levelOf a.quiet a.debug)]
  ++ (if a.dry_run then [.setMarker "DRYRUN: "] else [])
  ++ (match a.log_file with
      | some f => if truthy (some f) then [.addLogFile f] else []
      | none => [])

/-- Lines 180–185: the runner is entered as a context manager; `run` is
wrapped in `try/except Exception`, whose handler logs the traceback at debug
level and calls `log.fail` with the summarized exception.  On every path the
context manager's exit (the runner's `release`) still runs. -/
def runnerPhase (oc : RunOutcome) : List LogEvent :=
  match oc with
  | .ok => [.runnerRun, .runnerExit]
  | .stepFailure _ => [.runnerRun, .runnerExit]
  | .internalFault m => [.runnerRun, .logDebug (tracebackOf m), .failMsg m, .runnerExit]

/-- Lines 156–185 of `cmd_run.py`: the conflicting-filters check, the parse
call (whose failure aborts via `log.fail`), the config load, and the runner
context. -/
def mainPhase (a : CliArgs) (wf : Workflow) (oc : RunOutcome) : List LogEvent :=
  if conflictCond a then
    [.failMsg skipConflictMsg]
  else
    match WorkflowParser.parse wf a.step a.skip a.substitution a.allow_loose with
    | .error e => [.parseCall, .failMsg (parseErrMsg e)]
    | .ok _ => [.parseCall, .loadConfigCall, .runnerEnter] ++ runnerPhase oc

/-- The effect trace of one invocation of `cli` in `cmd_run.py`, given the
workflow the file denotes and the outcome of the runner's `run` call. -/
def cliTrace (a : CliArgs) (wf : Workflow) (oc : RunOutcome) : List LogEvent :=
  setupPhase a ++ mainPhase a wf oc

/-- Modelled from the spec: the logging sink prepends the current marker
(`popper.log`'s `msg_prefix`, default empty) to every emitted line. -/
def emitLine (marker m : String) : String := marker ++ m

/-- The sink's marker after the setup phase: `"DRYRUN: "` iff `--dry-run`
was given (line 149–150), otherwise the sink's default empty marker. -/
def markerAfterSetup (dry_run : Bool) : String :=
  if dry_run then "DRYRUN: " else ""

/-- Every event of the setup phase is a sink-configuration event. -/
theorem mem_setupPhase_isSetup (a : CliArgs) :
    ∀ e ∈ setupPhase a, isSetup e = true := by
  intro e he
  unfold setupPhase at he
  simp only [List.mem_append, List.mem_singleton] at he
  rcases he with (he | he) | he
  · subst he; rfl
  · rcases hd : a.dry_run <;> rw [hd] at he <;> simp at he
    subst he; rfl
  · rcases hl : a.log_file with _ | f <;> rw [hl] at he <;> dsimp only at he
    · simp at he
    · by_cases hf : truthy (some f) = true
      · rw [if_pos hf] at he
        simp at he
        subst he; rfl
      · rw [if_neg hf] at he
        simp at he

/-- No event of the main phase is a sink-configuration event. -/
theorem mem_mainPhase_not_setup (a : CliArgs) (wf : Workflow) (oc : RunOutcome) :
    ∀ e ∈ mainPhase a wf oc, isSetup e = false := by
  intro e he
  unfold mainPhase at he
  by_cases hc : conflictCond a = true
  · simp only [hc, if_true] at he
    simp at he
    subst he; rfl
  · simp only [hc, if_false, Bool.false_eq_true] at he
    rcases hp : WorkflowParser.parse wf a.step a.skip a.substitution a.allow_loose with err | w <;>
      rw [hp] at he
    · simp at he
      rcases he with rfl | rfl <;> rfl
    · rcases oc with _ | m | m
      · simp [runnerPhase] at he
        rcases he with rfl | rfl | rfl | rfl | rfl <;> rfl
      · simp [runnerPhase] at he
        rcases he with rfl | rfl | rfl | rfl | rfl <;> rfl
      · simp [runnerPhase] at he
        rcases he with rfl | rfl | rfl | rfl | rfl | rfl | rfl <;> rfl

/-- The setup phase contains no event satisfying a predicate that holds
only for non-setup events. -/
theorem setupPhase_countP_zero (a : CliArgs) (p : LogEvent → Bool)
    (hp : ∀ e, isSetup e = true → p e = false) :
    (setupPhase a).countP p = 0 := by
  rw [List.countP_eq_zero]
  intro e he
  rw [hp e (mem_setupPhase_isSetup a e he)]
  exact Bool.false_ne_true

/-- Non-setup events never occur in the prefix of sink-configuration events. -/
theorem not_mem_takeWhile_setup (t : List LogEvent) (e : LogEvent)
    (he : isSetup e = false) : e ∉ t.takeWhile isSetup := by
  intro hm
  have h := List.mem_takeWhile_imp hm
  rw [he] at h
  exact Bool.false_ne_true h

/-- Replica of the spec claim's wording for the resolved logging level:
`DEBUG` if debug, else `INFO` if quiet, else `STEP_INFO`. -/
def levelClaimed (quiet debug : Bool) : String :=
  if debug then "DEBUG" else if quiet then "INFO" else "STEP_INFO"

/-- C9: if both `--quiet` and `--debug` are given, debug wins: the level set
on the sink is `DEBUG`; in general the level is a deterministic function of
the two flags (`DEBUG` if debug, else `INFO` if quiet, else `STEP_INFO`), and
it is the very first effect of the invocation. -/
theorem debug_overrides_quiet (q d : Bool) (a : CliArgs) (wf : Workflow)
    (oc : RunOutcome) :
    levelOf q d = levelClaimed q d
    ∧ levelOf true true = "DEBUG"
    ∧ (cliTrace a wf oc).head? = some (.setLevel (levelOf a.quiet a.debug)) := by
  refine ⟨?_, rfl, ?_⟩
  · rcases q <;> rcases d <;> rfl
  · simp [cliTrace, setupPhase]

/-- C6: `--quiet` (without `--debug`) raises the sink threshold from the
default `STEP_INFO` level to `INFO`, which suppresses step output while info,
warning and error messages are still emitted. -/
theorem quiet_raises_threshold :
    levelOf false false = "STEP_INFO"
    ∧ levelOf true false = "INFO"
    ∧ levelValue "STEP_INFO" < levelValue "INFO"
    ∧ emitted "INFO" (levelOf true false) = true
    ∧ emitted "WARNING" (levelOf true false) = true
    ∧ emitted "ERROR" (levelOf true false) = true
    ∧ emitted "STEP_INFO" (levelOf true false) = false := by
  refine ⟨rfl, rfl, by decide, rfl, rfl, rfl, rfl⟩

/-- C7: a container engine or resource manager given via an explicit flag
takes precedence over the value found in the configuration file; without the
flag, the configuration file's value (or the built-in default) is used. -/
theorem flag_overrides_config (e r : String) (cf : ConfigFileOpts)
    (reuse dr sp sc : Bool) (ws : String) :
    (ConfigLoader.load (some e) (some r) (some cf) reuse dr sp sc ws).engine_name = e
    ∧ (ConfigLoader.load (some e) (some r) (some cf) reuse dr sp sc ws).resman_name = r
    ∧ (ConfigLoader.load none none (some cf) reuse dr sp sc ws).engine_name
        = cf.engine_name.getD "docker"
    ∧ (ConfigLoader.load none none (some cf) reuse dr sp sc ws).resman_name
        = cf.resman_name.getD "host" :=
  ⟨rfl, rfl, rfl, rfl⟩

/-- C1: when both a (truthy) STEP argument and a non-empty skip list are
supplied, the invocation aborts with the conflicting-filters failure right
after sink setup: the workflow is never parsed, the run configuration is
never built, and the runner (hence any execution backend) is never entered. -/
theorem conflicting_filters (a : CliArgs) (wf : Workflow) (oc : RunOutcome)
    (hskip : a.skip ≠ []) (hstep : truthy a.step = true) :
    cliTrace a wf oc = setupPhase a ++ [.failMsg skipConflictMsg]
    ∧ LogEvent.parseCall ∉ cliTrace a wf oc
    ∧ LogEvent.loadConfigCall ∉ cliTrace a wf oc
    ∧ LogEvent.runnerEnter ∉ cliTrace a wf oc
    ∧ LogEvent.runnerRun ∉ cliTrace a wf oc := by
  have hc : conflictCond a = true := by
    unfold conflictCond
    rcases hs : a.skip with _ | ⟨x, xs⟩
    · exact absurd hs hskip
    · simp [hstep]
  have htr : cliTrace a wf oc = setupPhase a ++ [.failMsg skipConflictMsg] := by
    unfold cliTrace mainPhase
    rw [hc]
    simp
  refine ⟨htr, ?_, ?_, ?_, ?_⟩ <;>
  · rw [htr]
    intro hmem
    rcases List.mem_append.mp hmem with h | h
    · have hset := mem_setupPhase_isSetup a _ h
      simp [isSetup] at hset
    · simp at h

/-- Concrete command-line arguments with every option left at its default. -/
def argsBase : CliArgs :=
  { step := none, wfile := "wf.yml", debug := false, dry_run := false,
    log_file := none, quiet := false, reuse := false, engine := none,
    resource_manager := none, skip := [], skip_pull := false,
    skip_clone := false, substitution := [], allow_loose := false,
    workspace := none, conf := none }

/-- A concrete two-step workflow with no substitution references. -/
def wfAB : Workflow := ⟨[⟨"a", []⟩, ⟨"b", []⟩]⟩

/-- Witness for C1 at a concrete conflicting invocation. -/
theorem conflicting_filters_witness :
    LogEvent.runnerRun ∉ cliTrace { argsBase with step := some "a", skip := ["b"] } wfAB .ok
    ∧ LogEvent.parseCall ∉ cliTrace { argsBase with step := some "a", skip := ["b"] } wfAB .ok := by
  have h := conflicting_filters { argsBase with step := some "a", skip := ["b"] } wfAB .ok
    (by decide) (by decide)
  exact ⟨h.2.2.2.2, h.2.1⟩

/-- The runner-entry and runner-exit counts of the main phase agree. -/
theorem mainPhase_balanced (a : CliArgs) (wf : Workflow) (oc : RunOutcome) :
    (mainPhase a wf oc).countP isRunnerEnter = (mainPhase a wf oc).countP isRunnerExit := by
  unfold mainPhase
  by_cases hc : conflictCond a = true
  · simp only [hc, if_true]
    rfl
  · simp only [hc, if_false, Bool.false_eq_true]
    rcases hp : WorkflowParser.parse wf a.step a.skip a.substitution a.allow_loose with err | w
    · rfl
    · rcases oc with _ | m | m <;> rfl

/-- C2: the runner's `release` runs on every exit path.  `runnerExit` (the
context manager's exit, i.e. `release`) is the final runner-phase event
whether `run` returns normally, reports a step failure, or raises an
unexpected exception; consequently every trace has exactly as many runner
entries as runner exits. -/
theorem runner_release_all_paths (a : CliArgs) (wf : Workflow) (oc : RunOutcome) :
    (∀ oc' : RunOutcome, (runnerPhase oc').getLast? = some .runnerExit)
    ∧ (cliTrace a wf oc).countP isRunnerEnter = (cliTrace a wf oc).countP isRunnerExit := by
  constructor
  · intro oc'
    rcases oc' with _ | m | m <;> rfl
  · unfold cliTrace
    rw [List.countP_append, List.countP_append,
      setupPhase_countP_zero a isRunnerEnter
        (by intro e he; rcases e <;> simp_all [isSetup, isRunnerEnter]),
      setupPhase_countP_zero a isRunnerExit
        (by intro e he; rcases e <;> simp_all [isSetup, isRunnerExit]),
      mainPhase_balanced a wf oc]

/-- The debug-channel payloads of a trace. -/
def debugMsgs (t : List LogEvent) : List String :=
  t.filterMap (fun e => match e with | .logDebug s => some s | _ => none)

/-- The `log.fail` payloads of a trace. -/
def failMsgs (t : List LogEvent) : List String :=
  t.filterMap (fun e => match e with | .failMsg s => some s | _ => none)

/-- The setup phase writes nothing to the debug channel. -/
theorem debugMsgs_setupPhase (a : CliArgs) : debugMsgs (setupPhase a) = [] := by
  rw [debugMsgs, List.filterMap_eq_nil_iff]
  intro e he
  have h := mem_setupPhase_isSetup a e he
  rcases e <;> simp_all [isSetup]

/-- The setup phase produces no failure message. -/
theorem failMsgs_setupPhase (a : CliArgs) : failMsgs (setupPhase a) = [] := by
  rw [failMsgs, List.filterMap_eq_nil_iff]
  intro e he
  have h := mem_setupPhase_isSetup a e he
  rcases e <;> simp_all [isSetup]

/-- C3: an unexpected exception escaping `runner.run` is caught by the
`except Exception` handler at lines 183–185: the full traceback is the trace's
only debug-channel payload, the caller is surfaced exactly one summarized
failure message (the exception's summary), and the runner is still exited. -/
theorem internal_fault_boundary (a : CliArgs) (wf : Workflow) (m : String)
    (w : Workflow) (hnc : conflictCond a = false)
    (hp : WorkflowParser.parse wf a.step a.skip a.substitution a.allow_loose = .ok w) :
    cliTrace a wf (.internalFault m) =
      setupPhase a ++ [.parseCall, .loadConfigCall, .runnerEnter, .runnerRun,
        .logDebug (tracebackOf m), .failMsg m, .runnerExit]
    ∧ debugMsgs (cliTrace a wf (.internalFault m)) = [tracebackOf m]
    ∧ failMsgs (cliTrace a wf (.internalFault m)) = [m] := by
  have htr : cliTrace a wf (.internalFault m) =
      setupPhase a ++ [.parseCall, .loadConfigCall, .runnerEnter, .runnerRun,
        .logDebug (tracebackOf m), .failMsg m, .runnerExit] := by
    unfold cliTrace mainPhase
    rw [hp]
    simp only [hnc, Bool.false_eq_true, if_false]
    simp [runnerPhase]
  refine ⟨htr, ?_, ?_⟩
  · rw [htr, debugMsgs, List.filterMap_append, ← debugMsgs, debugMsgs_setupPhase]
    rfl
  · rw [htr, failMsgs, List.filterMap_append, ← failMsgs, failMsgs_setupPhase]
    rfl

/-- Witness for C3 at a concrete faulting invocation. -/
theorem internal_fault_boundary_witness :
    debugMsgs (cliTrace argsBase wfAB (.internalFault "boom")) = [tracebackOf "boom"]
    ∧ failMsgs (cliTrace argsBase wfAB (.internalFault "boom")) = ["boom"] := by
  have h := internal_fault_boundary argsBase wfAB "boom" wfAB (by decide) rfl
  exact ⟨h.2.1, h.2.2⟩

/-- C4: iff `--dry-run` is given, the `DRYRUN: ` marker is installed on the
sink — during the setup phase, before the parse call and before any runner
activity — and from then on every line the sink emits starts with the marker;
without the flag no marker event occurs and lines are emitted unchanged. -/
theorem dryrun_marker (a : CliArgs) (wf : Workflow) (oc : RunOutcome) (m : String) :
    (a.dry_run = true →
        LogEvent.setMarker "DRYRUN: " ∈ (cliTrace a wf oc).takeWhile isSetup
        ∧ ∃ t, emitLine (markerAfterSetup a.dry_run) m = "DRYRUN: " ++ t)
    ∧ (a.dry_run = false →
        (∀ p, LogEvent.setMarker p ∉ cliTrace a wf oc)
        ∧ emitLine (markerAfterSetup a.dry_run) m = m)
    ∧ LogEvent.parseCall ∉ (cliTrace a wf oc).takeWhile isSetup
    ∧ LogEvent.runnerRun ∉ (cliTrace a wf oc).takeWhile isSetup := by
  refine ⟨?_, ?_, not_mem_takeWhile_setup _ _ rfl, not_mem_takeWhile_setup _ _ rfl⟩
  · intro hd
    constructor
    · simp [cliTrace, setupPhase, hd, List.takeWhile_cons, isSetup]
    · exact ⟨m, by rw [hd]; rfl⟩
  · intro hd
    constructor
    · intro p hp
      unfold cliTrace at hp
      rcases List.mem_append.mp hp with h | h
      · unfold setupPhase at h
        rw [hd] at h
        rcases hl : a.log_file with _ | f <;> rw [hl] at h <;> dsimp only at h
        · simp at h
        · by_cases hf : truthy (some f) = true
          · rw [if_pos hf] at h
            simp at h
          · rw [if_neg hf] at h
            simp at h
      · have hns := mem_mainPhase_not_setup a wf oc _ h
        simp [isSetup] at hns
    · rw [hd]; rfl

/-- Witness for C4 at concrete invocations with and without `--dry-run`. -/
theorem dryrun_marker_witness :
    LogEvent.setMarker "DRYRUN: "
      ∈ (cliTrace { argsBase with dry_run := true } wfAB .ok).takeWhile isSetup
    ∧ emitLine (markerAfterSetup false) "pulling image" = "pulling image"
    ∧ emitLine (markerAfterSetup true) "pulling image" = "DRYRUN: " ++ "pulling image" := by
  have h1 := (dryrun_marker { argsBase with dry_run := true } wfAB .ok "pulling image").1 rfl
  have h2 := (dryrun_marker argsBase wfAB .ok "pulling image").2.1 rfl
  exact ⟨h1.1, h2.2, rfl⟩

/-- C5: with a supplied substitution key that no step references, a strict
run (no `--allow-loose`) aborts at workflow-build time — the trace ends at the
parse failure, the runner is never entered and no step can execute — while
the same invocation with `--allow-loose` proceeds to the run. -/
theorem unused_substitution_strictness (a : CliArgs) (wf : Workflow)
    (oc : RunOutcome) (k : String) (hnc : conflictCond a = false)
    (hk : unusedKey wf (a.substitution.map subKey) = some k) :
    (a.allow_loose = false →
        cliTrace a wf oc
          = setupPhase a ++ [.parseCall, .failMsg (parseErrMsg (.UnusedSubstitution k))]
        ∧ LogEvent.runnerEnter ∉ cliTrace a wf oc
        ∧ LogEvent.runnerRun ∉ cliTrace a wf oc)
    ∧ (a.allow_loose = true → LogEvent.runnerRun ∈ cliTrace a wf oc) := by
  constructor
  · intro hl
    have hparse : WorkflowParser.parse wf a.step a.skip a.substitution a.allow_loose
        = .error (.UnusedSubstitution k) := by
      unfold WorkflowParser.parse
      simp only [hl, Bool.not_false, if_true, hk]
    have htr : cliTrace a wf oc
        = setupPhase a ++ [.parseCall, .failMsg (parseErrMsg (.UnusedSubstitution k))] := by
      unfold cliTrace mainPhase
      rw [hparse]
      simp only [hnc, Bool.false_eq_true, if_false]
    refine ⟨htr, ?_, ?_⟩ <;>
    · rw [htr]
      intro hm
      rcases List.mem_append.mp hm with h | h
      · have hset := mem_setupPhase_isSetup a _ h
        simp [isSetup] at hset
      · simp at h
  · intro hl
    have hparse : WorkflowParser.parse wf a.step a.skip a.substitution a.allow_loose
        = .ok ⟨filterSteps wf.steps a.step a.skip⟩ := by
      unfold WorkflowParser.parse
      simp only [hl, Bool.not_true, Bool.false_eq_true, if_false]
    unfold cliTrace mainPhase
    rw [hparse]
    simp only [hnc, Bool.false_eq_true, if_false]
    rcases oc with _ | m | m <;> simp [runnerPhase]

/-- Witness for C5: strict vs loose run with an unused substitution `X=1`. -/
theorem unused_substitution_witness :
    LogEvent.runnerRun ∉ cliTrace { argsBase with substitution := ["X=1"] } wfAB .ok
    ∧ LogEvent.runnerRun
        ∈ cliTrace { argsBase with substitution := ["X=1"], allow_loose := true } wfAB .ok := by
  have h1 := (unused_substitution_strictness { argsBase with substitution := ["X=1"] }
    wfAB .ok "X" (by decide) (by decide)).1 rfl
  have h2 := (unused_substitution_strictness
    { argsBase with substitution := ["X=1"], allow_loose := true }
    wfAB .ok "X" (by decide) (by decide)).2 rfl
  exact ⟨h1.2.2, h2⟩

/-- C8: with a single (non-empty) STEP argument and no skip list, the
filtered workflow contains exactly the steps carrying that identifier and
nothing else; with a skip list, a step is kept iff it is not named in the
list, and the kept steps stay in declared order (a sublist of the input). -/
theorem step_and_skip_filtering (steps : List Step) (s : String)
    (skipped : List String) (st : Step) (hs : s ≠ "") :
    (st ∈ filterSteps steps (some s) [] ↔ st ∈ steps ∧ st.id = s)
    ∧ (st ∈ filterSteps steps none skipped ↔ st ∈ steps ∧ skipped.contains st.id = false)
    ∧ (filterSteps steps none skipped).Sublist steps
    ∧ (filterSteps steps (some s) []).Sublist steps := by
  have hts : truthy (some s) = true := by
    unfold truthy
    simp [hs]
  have htn : ¬(truthy none = true) := by
    simp [truthy]
  refine ⟨?_, ?_, ?_, ?_⟩
  · unfold filterSteps
    rw [if_pos hts]
    simp [List.mem_filter]
  · unfold filterSteps
    rw [if_neg htn]
    simp [List.mem_filter, Bool.not_eq_true']
  · unfold filterSteps
    rw [if_neg htn]
    exact List.filter_sublist steps
  · unfold filterSteps
    rw [if_pos hts]
    exact List.filter_sublist steps

/-- Witness for C8: on steps `[a, b]`, selecting step `a` keeps `a` and
drops `b`; skipping `a` keeps `b`. -/
theorem step_and_skip_filtering_witness :
    ((⟨"a", []⟩ : Step) ∈ filterSteps [⟨"a", []⟩, ⟨"b", []⟩] (some "a") [])
    ∧ ((⟨"b", []⟩ : Step) ∉ filterSteps [⟨"a", []⟩, ⟨"b", []⟩] (some "a") [])
    ∧ ((⟨"b", []⟩ : Step) ∈ filterSteps [⟨"a", []⟩, ⟨"b", []⟩] none ["a"]) := by
  have h1 := step_and_skip_filtering [⟨"a", []⟩, ⟨"b", []⟩] "a" ["a"] ⟨"a", []⟩ (by decide)
  have h2 := step_and_skip_filtering [⟨"a", []⟩, ⟨"b", []⟩] "a" ["a"] ⟨"b", []⟩ (by decide)
  refine ⟨h1.1.mpr ⟨by decide, rfl⟩, ?_, h2.2.1.mpr ⟨by decide, by decide⟩⟩
  intro hm
  have hb := h2.1.mp hm
  exact absurd hb.2 (by decide)

/-- C10: without `-w` (`--workspace`) the workspace handed to the run
configuration is the invoking process's current working directory (click's
declared default `os.getcwd()`); without `--log-file` no file sink is ever
attached during the invocation. -/
theorem default_workspace_and_logfile (a : CliArgs) (wf : Workflow)
    (oc : RunOutcome) (cwd : String) (cf : Option ConfigFileOpts)
    (hw : a.workspace = none) (hl : a.log_file = none) :
    workspaceArg a cwd = cwd
    ∧ (cliConfig a cwd cf).workspace_dir = cwd
    ∧ ∀ f, LogEvent.addLogFile f ∉ cliTrace a wf oc := by
  have h1 : workspaceArg a cwd = cwd := by
    rw [workspaceArg, hw]
    rfl
  refine ⟨h1, ?_, ?_⟩
  · simp [cliConfig, ConfigLoader.load, h1]
  · intro f hf
    unfold cliTrace at hf
    rcases List.mem_append.mp hf with h | h
    · unfold setupPhase at h
      rw [hl] at h
      rcases hd : a.dry_run <;> rw [hd] at h <;> simp at h
    · have hns := mem_mainPhase_not_setup a wf oc _ h
      simp [isSetup] at hns

/-- Witness for C10 at a concrete invocation with default workspace and no
log file. -/
theorem default_workspace_witness :
    workspaceArg argsBase "/home/user/project" = "/home/user/project"
    ∧ LogEvent.addLogFile "popper.log" ∉ cliTrace argsBase wfAB .ok := by
  have h := default_workspace_and_logfile argsBase wfAB .ok "/home/user/project" none rfl rfl
  exact ⟨h.1, h.2.2 "popper.log"⟩
